import Mathlib

/-
Verification of MAPnnet (`src/map/train.py`) against its specification.

The embedding covers the two core components the claims are about:

* the training-loop controller `train` (train.py lines 18-142): epoch loop,
  per-batch training pass, the evaluation gate `(i+1) % update_freq == 0`
  (lines 129-139), and the checkpoint gate
  `(i+1) % save_freq == 0 and savepath is not None` (lines 141-142);

* the diagnostic geometry walk `print_network_size` (train.py lines 344-389):
  length-1 broadcasting of the per-layer hyperparameter vectors
  (lines 353-360), the per-layer shape walk (lines 362-374) and the
  flattened feature count for the first fully-connected layer (line 388).

Numeric modelling choices: Python integers are `Int`; the running loss values
are modelled as `ℚ` (the claims under consideration are about control flow and
which exact quotient is stored, not about binary floating-point rounding);
Python `%` is floor-mod (`Int.fmod`) and raises `ZeroDivisionError` on a zero
divisor; `numpy.int16` casts wrap two's-complement.  The actual numeric values
produced by `model(x)` / `loss_func` are abstracted as per-epoch lists of
per-batch loss values, which is faithful for every property below: the
controller only ever reads the losses as opaque numbers that it appends,
sums and divides.
-/

namespace MAPnet

/-- Python runtime errors reachable in the embedded code paths:
`ZeroDivisionError` from `% 0`, `NameError` from reading the loop variable
`index` when no enumerate loop ever ran, `IndexError` from out-of-range
list indexing. -/
inductive PyError where
  | zeroDivisionError
  | nameError
  | indexError
  deriving DecidableEq, Repr

/-- Python `a % b`: floor-mod (`Int.fmod`, whose result has the sign of `b`,
as in Python), raising `ZeroDivisionError` when `b = 0`. -/
def pyMod (a b : Int) : Except PyError Int :=
  if b = 0 then .error .zeroDivisionError else .ok (Int.fmod a b)

/-! ### The training controller (train.py lines 18-142) -/

/-- The `loss_func` argument of `train` (line 29): either the default
`torch.nn.MSELoss()` or a user-supplied callable. -/
inductive LossChoice where
  | mseLoss
  | custom (name : String)
  deriving DecidableEq

/-- The `optimizer` argument of `train` (line 30): the Adam constructor
carries its learning rate. -/
inductive OptimChoice where
  | adam (lr : ℚ)
  | custom (name : String)
  deriving DecidableEq

/-- train.py lines 84-85: `if loss_func is None: loss_func = torch.nn.MSELoss()`. -/
def resolveLoss : Option LossChoice → LossChoice
  | none => .mseLoss
  | some l => l

/-- train.py lines 86-87:
`if optimizer is None: optimizer = lambda x: torch.optim.Adam(x.parameters(), lr=0.000001)`. -/
def resolveOptimizer : Option OptimChoice → OptimChoice
  | none => .adam (1 / 1000000)
  | some o => o

/-- Arguments of `train` (train.py lines 18-33).  `trainLosses e` (resp.
`testLosses e`) is the list of per-batch loss values the model/loss pair
produces on the train (resp. test) DataLoader during epoch `e`; `scheduler`
is `some` when a scheduler factory was supplied.  `batch_size`, `num_workers`,
`cuda` and `silent` only affect how batches are produced and displayed, which
the loss lists already abstract. -/
structure TrainArgs where
  epochs : Nat
  update_freq : Int
  save_freq : Int
  savepath : Option String
  loss_func : Option LossChoice
  optimizer : Option OptimChoice
  scheduler : Option String
  trainLosses : Nat → List ℚ
  testLosses : Nat → List ℚ

/-- Mutable state threaded through the epoch loop:
* `test_loss` — the variable initialised to `0.0` at line 77;
* `index` — the last value the enumerate loops (lines 111, 131) assigned to
  the shared loop variable `index`, `none` if neither loop has run a batch;
* `saved` — filenames passed to `torch.save` so far (line 142), in order;
* `schedSteps` — number of `model_scheduler.step()` calls (line 104);
* `displays` — one entry `(epoch, shown test loss)` per epoch whose progress
  bar was created: every status line of epoch `i` (lines 105 and 124) shows
  the same `test_loss` value, since the variable is only reassigned at
  line 139, after the batch loop;
* `evalDivisors` — ghost instrumentation: `(epoch, divisor)` for each
  execution of the division at line 139 (`total_loss/(index+1)`). -/
structure TrainState where
  test_loss : ℚ
  index : Option Nat
  saved : List String
  schedSteps : Nat
  displays : List (Nat × ℚ)
  evalDivisors : List (Nat × Nat)
  deriving DecidableEq

/-- State on entry to the epoch loop (train.py line 77 and surroundings). -/
def initState : TrainState :=
  { test_loss := 0, index := none, saved := [], schedSteps := 0,
    displays := [], evalDivisors := [] }

/-- train.py line 142: `'epoch-{}.dat'.format(i+1)`. -/
def checkpointFileName (e : Nat) : String := "epoch-" ++ toString e ++ ".dat"

/-- train.py lines 103-104: `if model_scheduler is not None: model_scheduler.step()`. -/
def schedStep (a : TrainArgs) (s : TrainState) : TrainState :=
  if a.scheduler.isSome then { s with schedSteps := s.schedSteps + 1 } else s

/-- train.py lines 105 and 124: the progress bar of epoch `i` displays the
current `test_loss` on every status line of the epoch. -/
def displayStep (i : Nat) (s : TrainState) : TrainState :=
  { s with displays := s.displays ++ [(i, s.test_loss)] }

/-- train.py lines 111-124: the training batch loop.  Its effect on the state
the later gates can observe is confined to the loop variable `index`, which
ends at (number of train batches - 1) when the epoch has at least one batch
and keeps its previous binding otherwise. -/
def trainLoop (a : TrainArgs) (i : Nat) (s : TrainState) : TrainState :=
  if (a.trainLosses i).length = 0 then s
  else { s with index := some ((a.trainLosses i).length - 1) }

/-- train.py lines 129-139: the evaluation gate.  `(i+1) % update_freq`
raises on a zero divisor; when the gate fires, the test loop accumulates
`total_loss` over the test batches (leaving `index` at the last test batch
counter when there was one), and line 139 stores
`test_loss = total_loss/(index+1)` — a `NameError` if `index` was never
assigned by any loop. -/
def evalStep (a : TrainArgs) (i : Nat) (s : TrainState) : TrainState × Option PyError :=
  match pyMod ((i : Int) + 1) a.update_freq with
  | .error e => (s, some e)
  | .ok r =>
    if r = 0 then
      let tl := a.testLosses i
      let s1 := if tl.length = 0 then s else { s with index := some (tl.length - 1) }
      match s1.index with
      | none => (s1, some .nameError)
      | some k =>
        ({ s1 with
            test_loss := tl.sum / ((k : ℚ) + 1),
            evalDivisors := s1.evalDivisors ++ [(i, k + 1)] }, none)
    else (s, none)

/-- train.py lines 141-142: the checkpoint gate.  The modulo is evaluated
before the `and`, so a zero `save_freq` raises even when `savepath` is
absent; when the gate fires and a savepath was supplied, the model is saved
under `'epoch-{}.dat'.format(i+1)` in the run folder. -/
def saveStep (a : TrainArgs) (i : Nat) (s : TrainState) : TrainState × Option PyError :=
  match pyMod ((i : Int) + 1) a.save_freq with
  | .error e => (s, some e)
  | .ok r =>
    if r = 0 ∧ a.savepath.isSome then
      ({ s with saved := s.saved ++ [checkpointFileName (i + 1)] }, none)
    else (s, none)

/-- One iteration of the epoch loop (train.py lines 101-142), in source
order: scheduler step, progress-bar creation, training batch loop,
evaluation gate, checkpoint gate.  A raised exception aborts the epoch
(and, via `runEpochs`, the whole run). -/
def runEpoch (a : TrainArgs) (i : Nat) (s : TrainState) : TrainState × Option PyError :=
  match evalStep a i (trainLoop a i (displayStep i (schedStep a s))) with
  | (s4, none) => saveStep a i s4
  | (s4, some e) => (s4, some e)

/-- The first `n` iterations of `for i in range(0, epochs)` (train.py
line 101), starting from `initState`; an uncaught exception freezes the
state and is reported alongside it. -/
def runEpochs (a : TrainArgs) : Nat → TrainState × Option PyError
  | 0 => (initState, none)
  | n + 1 =>
    match runEpochs a n with
    | (s, none) => runEpoch a n s
    | (s, some e) => (s, some e)

/-- Observable outcome of a call to `train` (train.py lines 18-142):
the resolved loss function and optimizer, the final loop state, and the
exception that aborted the run, if any. -/
structure RunOutcome where
  loss : LossChoice
  optim : OptimChoice
  state : TrainState
  err : Option PyError

/-- The `train` function of train.py (lines 18-142). -/
def train (a : TrainArgs) : RunOutcome :=
  let r := runEpochs a a.epochs
  { loss := resolveLoss a.loss_func,
    optim := resolveOptimizer a.optimizer,
    state := r.1, err := r.2 }

/-! ### The geometry walk (train.py lines 344-389) -/

/-- A triple of spatial dimensions, as the length-3 numpy arrays used by
`print_network_size`. -/
structure Vec3 where
  x : Int
  y : Int
  z : Int
  deriving DecidableEq, Repr

/-- Modelled from the spec: one axis of `get_out_dims`, which train.py
imports from the repository's `model` module (source not present under
`src/`).  The spec gives the standard convolution output-size formula
`out[d] = floor((input[d] + 2*padding[d] - dilation[d]*(kernel[d]-1) - 1) / stride[d] + 1)`
with a truncating floor, applied independently per axis. -/
def convOutDim (inp p d k s : Int) : Int :=
  Int.fdiv (inp + 2 * p - d * (k - 1) - 1) s + 1

/-- Modelled from the spec: `get_out_dims`, the per-axis application of
`convOutDim` to the three spatial axes. -/
def get_out_dims (input padding dilation kernel stride : Vec3) : Vec3 :=
  ⟨convOutDim input.x padding.x dilation.x kernel.x stride.x,
   convOutDim input.y padding.y dilation.y kernel.y stride.y,
   convOutDim input.z padding.z dilation.z kernel.z stride.z⟩

/-- `numpy.int16` cast (train.py line 371, `.astype(np.int16)`):
two's-complement wrap into `[-32768, 32768)`. -/
def toInt16 (v : Int) : Int := (v + 32768) % 65536 - 32768

/-- Elementwise `numpy.int16` cast of a dimension triple. -/
def vecToInt16 (v : Vec3) : Vec3 := ⟨toInt16 v.x, toInt16 v.y, toInt16 v.z⟩

/-- `np.prod` over a length-3 dimension array (train.py line 388); numpy
reduces small-integer dtypes in platform precision, so no wrap occurs here. -/
def vecProd (v : Vec3) : Int := v.x * v.y * v.z

/-- `np.repeat(v, 3)` on a scalar (train.py lines 367-370). -/
def rep3 (p : Int) : Vec3 := ⟨p, p, p⟩

/-- train.py lines 353-360: a per-layer hyperparameter list of length exactly
1 is repeated `conv_layers` times; any other length is left untouched. -/
def broadcast1 (v : List Int) (n : Nat) : List Int :=
  match v with
  | [p] => List.replicate n p
  | _ => v

/-- Arguments of `print_network_size` (train.py lines 344-351), drawn from
the parsed CLI arguments; `(t, x, y, z)` is the `--debug-size` tuple. -/
structure SizeArgs where
  padding : List Int
  dilation : List Int
  kernel_size : List Int
  stride : List Int
  conv_layers : Nat
  filters : List Int
  t : Int
  x : Int
  y : Int
  z : Int

/-- The two growing lists of `print_network_size`: `conv_layer_sizes`
(line 362) and `n_channels` (line 363), most recent entry last. -/
structure SizeState where
  sizes : List Vec3
  channels : List Int
  deriving DecidableEq

/-- One iteration of the layer loop (train.py lines 364-374), in source
order: the indexings `padding[i]`, `dilation[i]`, `kernel[i]`, `stride[i]`
feed `get_out_dims` (an `IndexError` if any is out of range), the resulting
dimensions are int16-cast and appended, and then `filters[i]` is read to
append the next channel count. -/
def layerStep (p d k s f : List Int) (i : Nat) (st : SizeState) : SizeState × Option PyError :=
  match p.get? i with
  | none => (st, some .indexError)
  | some pv =>
    match d.get? i with
    | none => (st, some .indexError)
    | some dv =>
      match k.get? i with
      | none => (st, some .indexError)
      | some kv =>
        match s.get? i with
        | none => (st, some .indexError)
        | some sv =>
          let last := st.sizes.getLast?.getD ⟨0, 0, 0⟩
          let dims := vecToInt16 (get_out_dims last (rep3 pv) (rep3 dv) (rep3 kv) (rep3 sv))
          let st1 : SizeState := { st with sizes := st.sizes ++ [dims] }
          match f.get? i with
          | some fv =>
            ({ st1 with channels := st1.channels ++ [st1.channels.getLast?.getD 0 * fv] }, none)
          | none => (st1, some .indexError)

/-- The first `n` iterations of `for i in range(0, conv_layers)`
(train.py line 364); an `IndexError` freezes the lists built so far. -/
def walkLayers (p d k s f : List Int) (st0 : SizeState) : Nat → SizeState × Option PyError
  | 0 => (st0, none)
  | n + 1 =>
    match walkLayers p d k s f st0 n with
    | (st, none) => layerStep p d k s f n st
    | (st, some e) => (st, some e)

/-- Observable outcome of `print_network_size`: the two lists, the flattened
feature count of line 388 (`none` when an exception struck first), and the
exception, if any. -/
structure SizeOutcome where
  final : SizeState
  fc : Option Int
  err : Option PyError

/-- `print_network_size` (train.py lines 344-389): broadcast the four
length-1 hyperparameter vectors (never `filters`), walk the layers from the
initial `(t, x, y, z)` tuple, and report
`fc = int(np.prod(conv_layer_sizes[-1])) * n_channels[-1]`. -/
def print_network_size (a : SizeArgs) : SizeOutcome :=
  match walkLayers (broadcast1 a.padding a.conv_layers) (broadcast1 a.dilation a.conv_layers)
      (broadcast1 a.kernel_size a.conv_layers) (broadcast1 a.stride a.conv_layers)
      a.filters { sizes := [⟨a.x, a.y, a.z⟩], channels := [a.t] } a.conv_layers with
  | (st, none) =>
    { final := st,
      fc := some (vecProd (st.sizes.getLast?.getD ⟨0, 0, 0⟩) * st.channels.getLast?.getD 0),
      err := none }
  | (st, some e) => { final := st, fc := none, err := some e }

/-! ### Helper lemmas: Python modulo -/

theorem fmod_eq_zero_iff_dvd (a b : Int) : Int.fmod a b = 0 ↔ b ∣ a := by
  constructor
  · intro h
    refine ⟨Int.fdiv a b, ?_⟩
    have := Int.fmod_add_fdiv a b
    rw [h, zero_add] at this
    exact this.symm
  · rintro ⟨c, rfl⟩
    exact Int.mul_fmod_right b c

theorem pyMod_zero (a : Int) : pyMod a 0 = .error .zeroDivisionError := by
  simp [pyMod]

theorem pyMod_ok (a b : Int) (hb : b ≠ 0) : pyMod a b = .ok (Int.fmod a b) := by
  simp [pyMod, hb]

/-! ### Helper lemmas: effect of each sub-step on each state field -/

@[simp] theorem schedStep_test_loss (a : TrainArgs) (s : TrainState) :
    (schedStep a s).test_loss = s.test_loss := by
  unfold schedStep; split <;> rfl

@[simp] theorem schedStep_index (a : TrainArgs) (s : TrainState) :
    (schedStep a s).index = s.index := by
  unfold schedStep; split <;> rfl

@[simp] theorem schedStep_saved (a : TrainArgs) (s : TrainState) :
    (schedStep a s).saved = s.saved := by
  unfold schedStep; split <;> rfl

@[simp] theorem schedStep_displays (a : TrainArgs) (s : TrainState) :
    (schedStep a s).displays = s.displays := by
  unfold schedStep; split <;> rfl

@[simp] theorem schedStep_evalDivisors (a : TrainArgs) (s : TrainState) :
    (schedStep a s).evalDivisors = s.evalDivisors := by
  unfold schedStep; split <;> rfl

theorem schedStep_none (a : TrainArgs) (s : TrainState) (h : a.scheduler = none) :
    schedStep a s = s := by
  unfold schedStep; rw [h]; rfl

@[simp] theorem displayStep_test_loss (i : Nat) (s : TrainState) :
    (displayStep i s).test_loss = s.test_loss := rfl

@[simp] theorem displayStep_index (i : Nat) (s : TrainState) :
    (displayStep i s).index = s.index := rfl

@[simp] theorem displayStep_saved (i : Nat) (s : TrainState) :
    (displayStep i s).saved = s.saved := rfl

@[simp] theorem displayStep_schedSteps (i : Nat) (s : TrainState) :
    (displayStep i s).schedSteps = s.schedSteps := rfl

@[simp] theorem displayStep_displays (i : Nat) (s : TrainState) :
    (displayStep i s).displays = s.displays ++ [(i, s.test_loss)] := rfl

@[simp] theorem displayStep_evalDivisors (i : Nat) (s : TrainState) :
    (displayStep i s).evalDivisors = s.evalDivisors := rfl

@[simp] theorem trainLoop_test_loss (a : TrainArgs) (i : Nat) (s : TrainState) :
    (trainLoop a i s).test_loss = s.test_loss := by
  unfold trainLoop; split <;> rfl

@[simp] theorem trainLoop_saved (a : TrainArgs) (i : Nat) (s : TrainState) :
    (trainLoop a i s).saved = s.saved := by
  unfold trainLoop; split <;> rfl

@[simp] theorem trainLoop_schedSteps (a : TrainArgs) (i : Nat) (s : TrainState) :
    (trainLoop a i s).schedSteps = s.schedSteps := by
  unfold trainLoop; split <;> rfl

@[simp] theorem trainLoop_displays (a : TrainArgs) (i : Nat) (s : TrainState) :
    (trainLoop a i s).displays = s.displays := by
  unfold trainLoop; split <;> rfl

@[simp] theorem trainLoop_evalDivisors (a : TrainArgs) (i : Nat) (s : TrainState) :
    (trainLoop a i s).evalDivisors = s.evalDivisors := by
  unfold trainLoop; split <;> rfl

theorem trainLoop_index_pos (a : TrainArgs) (i : Nat) (s : TrainState)
    (h : (a.trainLosses i).length ≠ 0) :
    (trainLoop a i s).index = some ((a.trainLosses i).length - 1) := by
  unfold trainLoop; rw [if_neg h]

theorem trainLoop_index_empty (a : TrainArgs) (i : Nat) (s : TrainState)
    (h : (a.trainLosses i).length = 0) :
    (trainLoop a i s).index = s.index := by
  unfold trainLoop; rw [if_pos h]

/-! ### Helper lemmas: the evaluation gate -/

theorem evalStep_zero_freq (a : TrainArgs) (i : Nat) (s : TrainState)
    (h : a.update_freq = 0) :
    evalStep a i s = (s, some .zeroDivisionError) := by
  unfold evalStep; rw [h, pyMod_zero]

theorem evalStep_skip (a : TrainArgs) (i : Nat) (s : TrainState)
    (h : a.update_freq ≠ 0) (hnd : ¬ a.update_freq ∣ ((i : Int) + 1)) :
    evalStep a i s = (s, none) := by
  unfold evalStep
  rw [pyMod_ok _ _ h]
  have : ¬ Int.fmod ((i : Int) + 1) a.update_freq = 0 := by
    rw [fmod_eq_zero_iff_dvd]; exact hnd
  simp only [this, if_false]

theorem evalStep_fire_nonempty (a : TrainArgs) (i : Nat) (s : TrainState)
    (h : a.update_freq ≠ 0) (hd : a.update_freq ∣ ((i : Int) + 1))
    (ht : (a.testLosses i).length ≠ 0) :
    evalStep a i s =
      ({ s with
          test_loss := (a.testLosses i).sum / ((a.testLosses i).length : ℚ),
          index := some ((a.testLosses i).length - 1),
          evalDivisors := s.evalDivisors ++ [(i, (a.testLosses i).length)] }, none) := by
  unfold evalStep
  rw [pyMod_ok _ _ h]
  have hz : Int.fmod ((i : Int) + 1) a.update_freq = 0 :=
    (fmod_eq_zero_iff_dvd _ _).mpr hd
  have hlen : (a.testLosses i).length - 1 + 1 = (a.testLosses i).length :=
    Nat.succ_pred_eq_of_pos (Nat.pos_of_ne_zero ht)
  have hcast : (((a.testLosses i).length - 1 : Nat) : ℚ) + 1 = ((a.testLosses i).length : ℚ) := by
    exact_mod_cast hlen
  simp only [hz, eq_self_iff_true, if_true, if_neg ht, hcast, hlen]

theorem evalStep_fire_empty_some (a : TrainArgs) (i : Nat) (s : TrainState) (k : Nat)
    (h : a.update_freq ≠ 0) (hd : a.update_freq ∣ ((i : Int) + 1))
    (ht : (a.testLosses i).length = 0) (hk : s.index = some k) :
    evalStep a i s =
      ({ s with
          test_loss := 0,
          evalDivisors := s.evalDivisors ++ [(i, k + 1)] }, none) := by
  unfold evalStep
  rw [pyMod_ok _ _ h]
  have hz : Int.fmod ((i : Int) + 1) a.update_freq = 0 :=
    (fmod_eq_zero_iff_dvd _ _).mpr hd
  have hnil : a.testLosses i = [] := List.length_eq_zero.mp ht
  simp only [hz, eq_self_iff_true, if_true, hnil, List.length_nil, hk, List.sum_nil, zero_div]

theorem evalStep_fire_empty_none (a : TrainArgs) (i : Nat) (s : TrainState)
    (h : a.update_freq ≠ 0) (hd : a.update_freq ∣ ((i : Int) + 1))
    (ht : (a.testLosses i).length = 0) (hk : s.index = none) :
    evalStep a i s = (s, some .nameError) := by
  unfold evalStep
  rw [pyMod_ok _ _ h]
  have hz : Int.fmod ((i : Int) + 1) a.update_freq = 0 :=
    (fmod_eq_zero_iff_dvd _ _).mpr hd
  simp only [hz, eq_self_iff_true, if_true, if_pos ht, hk]

theorem evalStep_saved (a : TrainArgs) (i : Nat) (s : TrainState) :
    (evalStep a i s).1.saved = s.saved := by
  unfold evalStep
  rcases pyMod ((i : Int) + 1) a.update_freq with e | r
  · rfl
  · dsimp only
    split
    · split <;> rename_i h1 <;> split <;> simp_all
    · rfl

theorem evalStep_schedSteps (a : TrainArgs) (i : Nat) (s : TrainState) :
    (evalStep a i s).1.schedSteps = s.schedSteps := by
  unfold evalStep
  rcases pyMod ((i : Int) + 1) a.update_freq with e | r
  · rfl
  · dsimp only
    split
    · split <;> rename_i h1 <;> split <;> simp_all
    · rfl

theorem evalStep_displays (a : TrainArgs) (i : Nat) (s : TrainState) :
    (evalStep a i s).1.displays = s.displays := by
  unfold evalStep
  rcases pyMod ((i : Int) + 1) a.update_freq with e | r
  · rfl
  · dsimp only
    split
    · split <;> rename_i h1 <;> split <;> simp_all
    · rfl

/-! ### Helper lemmas: the checkpoint gate -/

theorem saveStep_zero_freq (a : TrainArgs) (i : Nat) (s : TrainState)
    (h : a.save_freq = 0) :
    saveStep a i s = (s, some .zeroDivisionError) := by
  unfold saveStep; rw [h, pyMod_zero]

theorem saveStep_fire (a : TrainArgs) (i : Nat) (s : TrainState)
    (h : a.save_freq ≠ 0) (hd : a.save_freq ∣ ((i : Int) + 1))
    (hp : a.savepath.isSome) :
    saveStep a i s = ({ s with saved := s.saved ++ [checkpointFileName (i + 1)] }, none) := by
  unfold saveStep
  rw [pyMod_ok _ _ h]
  have hz : Int.fmod ((i : Int) + 1) a.save_freq = 0 :=
    (fmod_eq_zero_iff_dvd _ _).mpr hd
  simp only [hz, hp, and_self, if_pos, true_and, if_true]

theorem saveStep_skip (a : TrainArgs) (i : Nat) (s : TrainState)
    (h : a.save_freq ≠ 0)
    (hc : ¬ (a.save_freq ∣ ((i : Int) + 1) ∧ a.savepath.isSome)) :
    saveStep a i s = (s, none) := by
  unfold saveStep
  rw [pyMod_ok _ _ h]
  have : ¬ (Int.fmod ((i : Int) + 1) a.save_freq = 0 ∧ a.savepath.isSome = true) := by
    rw [fmod_eq_zero_iff_dvd]; exact hc
  simp only [this, if_false]

theorem saveStep_ok (a : TrainArgs) (i : Nat) (s : TrainState)
    (h : a.save_freq ≠ 0) :
    (saveStep a i s).2 = none := by
  unfold saveStep
  rw [pyMod_ok _ _ h]
  dsimp only
  split <;> rfl

theorem saveStep_test_loss (a : TrainArgs) (i : Nat) (s : TrainState) :
    (saveStep a i s).1.test_loss = s.test_loss := by
  unfold saveStep
  rcases pyMod ((i : Int) + 1) a.save_freq with e | r
  · rfl
  · dsimp only; split <;> rfl

theorem saveStep_index (a : TrainArgs) (i : Nat) (s : TrainState) :
    (saveStep a i s).1.index = s.index := by
  unfold saveStep
  rcases pyMod ((i : Int) + 1) a.save_freq with e | r
  · rfl
  · dsimp only; split <;> rfl

theorem saveStep_schedSteps (a : TrainArgs) (i : Nat) (s : TrainState) :
    (saveStep a i s).1.schedSteps = s.schedSteps := by
  unfold saveStep
  rcases pyMod ((i : Int) + 1) a.save_freq with e | r
  · rfl
  · dsimp only; split <;> rfl

theorem saveStep_displays (a : TrainArgs) (i : Nat) (s : TrainState) :
    (saveStep a i s).1.displays = s.displays := by
  unfold saveStep
  rcases pyMod ((i : Int) + 1) a.save_freq with e | r
  · rfl
  · dsimp only; split <;> rfl

theorem saveStep_evalDivisors (a : TrainArgs) (i : Nat) (s : TrainState) :
    (saveStep a i s).1.evalDivisors = s.evalDivisors := by
  unfold saveStep
  rcases pyMod ((i : Int) + 1) a.save_freq with e | r
  · rfl
  · dsimp only; split <;> rfl

theorem saveStep_saved_nopath (a : TrainArgs) (i : Nat) (s : TrainState)
    (hp : a.savepath = none) :
    (saveStep a i s).1.saved = s.saved := by
  unfold saveStep
  rcases pyMod ((i : Int) + 1) a.save_freq with e | r
  · rfl
  · dsimp only
    split
    · rename_i hc
      rw [hp] at hc
      simp at hc
    · rfl

/-! ### Helper lemmas: one epoch -/

theorem runEpoch_displays (a : TrainArgs) (i : Nat) (s : TrainState) :
    (runEpoch a i s).1.displays = s.displays ++ [(i, s.test_loss)] := by
  unfold runEpoch
  rcases hev : evalStep a i (trainLoop a i (displayStep i (schedStep a s))) with ⟨s4, e⟩
  have h4 : s4.displays = s.displays ++ [(i, s.test_loss)] := by
    have h := evalStep_displays a i (trainLoop a i (displayStep i (schedStep a s)))
    rw [hev] at h
    simpa using h
  cases e
  · dsimp only
    rw [saveStep_displays, h4]
  · dsimp only
    exact h4

theorem runEpoch_schedSteps (a : TrainArgs) (i : Nat) (s : TrainState) :
    (runEpoch a i s).1.schedSteps = (schedStep a s).schedSteps := by
  unfold runEpoch
  rcases hev : evalStep a i (trainLoop a i (displayStep i (schedStep a s))) with ⟨s4, e⟩
  have h4 : s4.schedSteps = (schedStep a s).schedSteps := by
    have h := evalStep_schedSteps a i (trainLoop a i (displayStep i (schedStep a s)))
    rw [hev] at h
    simpa using h
  cases e
  · dsimp only
    rw [saveStep_schedSteps, h4]
  · dsimp only
    exact h4

theorem runEpoch_saved_nopath (a : TrainArgs) (i : Nat) (s : TrainState)
    (hp : a.savepath = none) :
    (runEpoch a i s).1.saved = s.saved := by
  unfold runEpoch
  rcases hev : evalStep a i (trainLoop a i (displayStep i (schedStep a s))) with ⟨s4, e⟩
  have h4 : s4.saved = s.saved := by
    have h := evalStep_saved a i (trainLoop a i (displayStep i (schedStep a s)))
    rw [hev] at h
    simpa using h
  cases e
  · dsimp only
    rw [saveStep_saved_nopath a i s4 hp, h4]
  · dsimp only
    exact h4

theorem runEpoch_ok (a : TrainArgs) (i : Nat) (s : TrainState)
    (hu : a.update_freq ≠ 0) (hs : a.save_freq ≠ 0)
    (ht : (a.testLosses i).length ≠ 0) :
    (runEpoch a i s).2 = none := by
  unfold runEpoch
  by_cases hd : a.update_freq ∣ ((i : Int) + 1)
  · rw [evalStep_fire_nonempty a i _ hu hd ht]
    dsimp only
    exact saveStep_ok a i _ hs
  · rw [evalStep_skip a i _ hu hd]
    dsimp only
    exact saveStep_ok a i _ hs

theorem runEpoch_test_loss_skip (a : TrainArgs) (i : Nat) (s : TrainState)
    (hu : a.update_freq ≠ 0) (hnd : ¬ a.update_freq ∣ ((i : Int) + 1)) :
    (runEpoch a i s).1.test_loss = s.test_loss := by
  unfold runEpoch
  rw [evalStep_skip a i _ hu hnd]
  dsimp only
  rw [saveStep_test_loss]
  simp

theorem runEpoch_test_loss_fire (a : TrainArgs) (i : Nat) (s : TrainState)
    (hu : a.update_freq ≠ 0) (hd : a.update_freq ∣ ((i : Int) + 1))
    (ht : (a.testLosses i).length ≠ 0) :
    (runEpoch a i s).1.test_loss = (a.testLosses i).sum / ((a.testLosses i).length : ℚ) := by
  unfold runEpoch
  rw [evalStep_fire_nonempty a i _ hu hd ht]
  dsimp only
  rw [saveStep_test_loss]

theorem runEpoch_saved_ok (a : TrainArgs) (i : Nat) (s : TrainState)
    (hu : a.update_freq ≠ 0) (hs : a.save_freq ≠ 0)
    (ht : (a.testLosses i).length ≠ 0) :
    (runEpoch a i s).1.saved =
      s.saved ++
        (if a.save_freq ∣ ((i : Int) + 1) ∧ a.savepath.isSome
         then [checkpointFileName (i + 1)] else []) := by
  unfold runEpoch
  by_cases hd : a.update_freq ∣ ((i : Int) + 1) <;>
    [rw [evalStep_fire_nonempty a i _ hu hd ht]; rw [evalStep_skip a i _ hu hd]] <;>
  · dsimp only
    by_cases hc : a.save_freq ∣ ((i : Int) + 1) ∧ a.savepath.isSome
    · rw [saveStep_fire a i _ hs hc.1 hc.2, if_pos hc]
      simp
    · rw [saveStep_skip a i _ hs hc, if_neg hc]
      simp

/-! ### Helper lemmas: the epoch loop -/

theorem runEpochs_succ (a : TrainArgs) (n : Nat) :
    runEpochs a (n + 1) =
      match runEpochs a n with
      | (s, none) => runEpoch a n s
      | (s, some e) => (s, some e) := rfl

theorem runEpochs_succ_ok (a : TrainArgs) (n : Nat)
    (h : (runEpochs a n).2 = none) :
    runEpochs a (n + 1) = runEpoch a n (runEpochs a n).1 := by
  have h2 := runEpochs_succ a n
  rcases hr : runEpochs a n with ⟨s, e⟩
  rw [hr] at h2 h
  cases e
  · simpa using h2
  · simp at h

theorem runEpochs_succ_err (a : TrainArgs) (n : Nat) (e : PyError)
    (h : (runEpochs a n).2 = some e) :
    runEpochs a (n + 1) = runEpochs a n := by
  have h2 := runEpochs_succ a n
  rcases hr : runEpochs a n with ⟨s, e'⟩
  rw [hr] at h2 h
  cases e'
  · simp at h
  · simpa using h2

theorem runEpochs_ok (a : TrainArgs)
    (hu : a.update_freq ≠ 0) (hs : a.save_freq ≠ 0)
    (ht : ∀ e, (a.testLosses e).length ≠ 0) :
    ∀ n, (runEpochs a n).2 = none := by
  intro n
  induction n with
  | zero => rfl
  | succ n ih =>
    rw [runEpochs_succ_ok a n ih]
    exact runEpoch_ok a n _ hu hs (ht n)

theorem runEpochs_err_frozen (a : TrainArgs) (m : Nat) (e : PyError)
    (h : (runEpochs a m).2 = some e) :
    ∀ n, m ≤ n → runEpochs a n = runEpochs a m := by
  intro n hmn
  induction n with
  | zero =>
    have : m = 0 := Nat.le_zero.mp hmn
    rw [this]
  | succ n ih =>
    rcases Nat.lt_or_ge m (n + 1) with hlt | hge
    · have hmn' : m ≤ n := Nat.lt_succ_iff.mp hlt
      have he : (runEpochs a n).2 = some e := by rw [ih hmn', h]
      rw [runEpochs_succ_err a n e he, ih hmn']
    · have : m = n + 1 := Nat.le_antisymm hmn hge
      rw [this]

theorem runEpochs_saved_nopath (a : TrainArgs) (hp : a.savepath = none) :
    ∀ n, (runEpochs a n).1.saved = [] := by
  intro n
  induction n with
  | zero => rfl
  | succ n ih =>
    rcases he : (runEpochs a n).2 with _ | e
    · rw [runEpochs_succ_ok a n he, runEpoch_saved_nopath a n _ hp]
      exact ih
    · rw [runEpochs_succ_err a n e he]
      exact ih

theorem runEpochs_schedSteps_none (a : TrainArgs) (h : a.scheduler = none) :
    ∀ n, (runEpochs a n).1.schedSteps = 0 := by
  intro n
  induction n with
  | zero => rfl
  | succ n ih =>
    rcases he : (runEpochs a n).2 with _ | e
    · rw [runEpochs_succ_ok a n he, runEpoch_schedSteps, schedStep_none a _ h]
      exact ih
    · rw [runEpochs_succ_err a n e he]
      exact ih

theorem runEpochs_test_loss_early (a : TrainArgs) :
    ∀ n : Nat, ((n : Int) < a.update_freq) → (runEpochs a n).1.test_loss = 0 := by
  intro n
  induction n with
  | zero => intro _; rfl
  | succ n ih =>
    intro hlt
    have h0 : (0 : Int) ≤ (n : Int) := Int.natCast_nonneg n
    have hlt' : (n : Int) + 1 < a.update_freq := by exact_mod_cast hlt
    have hn : (n : Int) < a.update_freq := by omega
    have hu : a.update_freq ≠ 0 := by omega
    have hnd : ¬ a.update_freq ∣ ((n : Int) + 1) := by
      intro hdvd
      have := Int.le_of_dvd (by omega) hdvd
      omega
    rcases he : (runEpochs a n).2 with _ | e
    · rw [runEpochs_succ_ok a n he, runEpoch_test_loss_skip a n _ hu hnd]
      exact ih hn
    · rw [runEpochs_succ_err a n e he]
      exact ih hn

theorem runEpochs_displays_val (a : TrainArgs) :
    ∀ n, ∀ p ∈ (runEpochs a n).1.displays, p.2 = (runEpochs a p.1).1.test_loss := by
  intro n
  induction n with
  | zero => intro p hp; simp [runEpochs, initState] at hp
  | succ n ih =>
    intro p hp
    rcases he : (runEpochs a n).2 with _ | e
    · rw [runEpochs_succ_ok a n he] at hp
      rw [runEpoch_displays] at hp
      rcases List.mem_append.mp hp with hold | hnew
      · exact ih p hold
      · have : p = (n, (runEpochs a n).1.test_loss) := List.mem_singleton.mp hnew
        rw [this]
    · rw [runEpochs_succ_err a n e he] at hp
      exact ih p hp

theorem runEpochs_saved_spec (a : TrainArgs)
    (hu : a.update_freq ≠ 0) (hs : a.save_freq ≠ 0)
    (ht : ∀ e, (a.testLosses e).length ≠ 0) :
    ∀ n, (runEpochs a n).1.saved =
      (List.range n).filterMap (fun (i : Nat) =>
        if a.save_freq ∣ ((i : Int) + 1) ∧ a.savepath.isSome
        then some (checkpointFileName (i + 1)) else none) := by
  intro n
  induction n with
  | zero => rfl
  | succ n ih =>
    rw [runEpochs_succ_ok a n (runEpochs_ok a hu hs ht n),
      runEpoch_saved_ok a n _ hu hs (ht n), ih,
      List.range_succ, List.filterMap_append]
    congr 1
    by_cases hc : a.save_freq ∣ ((n : Int) + 1) ∧ a.savepath.isSome
    · simp [hc]
    · simp [hc]

theorem runEpoch_err_zero_update (a : TrainArgs) (i : Nat) (s : TrainState)
    (h : a.update_freq = 0) :
    (runEpoch a i s).2 = some PyError.zeroDivisionError := by
  unfold runEpoch
  rw [evalStep_zero_freq a i _ h]

theorem runEpoch_err_zero_save (a : TrainArgs) (i : Nat) (s : TrainState)
    (hu : a.update_freq ≠ 0) (h : a.save_freq = 0)
    (ht : (a.testLosses i).length ≠ 0) :
    (runEpoch a i s).2 = some PyError.zeroDivisionError := by
  unfold runEpoch
  by_cases hd : a.update_freq ∣ ((i : Int) + 1)
  · rw [evalStep_fire_nonempty a i _ hu hd ht]
    dsimp only
    rw [saveStep_zero_freq a i _ h]
  · rw [evalStep_skip a i _ hu hd]
    dsimp only
    rw [saveStep_zero_freq a i _ h]

/-! ### Claims about the training controller -/

/-- A concrete run for witnesses: `epochs=10, update_freq=3, save_freq=5`,
a savepath, all optional factories omitted, two training batches and two
test batches per epoch. -/
def wArgs : TrainArgs :=
  { epochs := 10, update_freq := 3, save_freq := 5, savepath := some "runs",
    loss_func := none, optimizer := none, scheduler := none,
    trainLosses := fun _ => [1, 2], testLosses := fun _ => [4, 2] }

/-- A concrete run whose test DataLoader yields zero batches while the
training loop runs two batches per epoch, with `update_freq = 1`. -/
def w7Args : TrainArgs :=
  { epochs := 2, update_freq := 1, save_freq := 1, savepath := none,
    loss_func := none, optimizer := none, scheduler := none,
    trainLosses := fun _ => [5, 7], testLosses := fun _ => [] }

/-- Claim C1: for every run of the training controller with positive
`update_freq` (and positive `save_freq`, so no gate raises, and a test
iterator that yields at least one batch each evaluation epoch, so batches
are processed), the stored test loss after epoch `i` (0-based) is recomputed
as (total test loss of the full forward pass) / (number of test batches
processed) exactly when the 1-based index `i+1` is a multiple of
`update_freq`, and is held unchanged from the previous epoch otherwise. -/
theorem claim_C1 (a : TrainArgs) (hu : 0 < a.update_freq) (hs : 0 < a.save_freq)
    (ht : ∀ e, (a.testLosses e).length ≠ 0) (i : Nat) (_hi : i < a.epochs) :
    ((a.update_freq ∣ ((i : Int) + 1)) →
       (runEpochs a (i + 1)).1.test_loss =
         (a.testLosses i).sum / ((a.testLosses i).length : ℚ)) ∧
    (¬ (a.update_freq ∣ ((i : Int) + 1)) →
       (runEpochs a (i + 1)).1.test_loss = (runEpochs a i).1.test_loss) := by
  have hu' : a.update_freq ≠ 0 := by omega
  have hs' : a.save_freq ≠ 0 := by omega
  have hok := runEpochs_ok a hu' hs' ht i
  constructor
  · intro hd
    rw [runEpochs_succ_ok a i hok, runEpoch_test_loss_fire a i _ hu' hd (ht i)]
  · intro hnd
    rw [runEpochs_succ_ok a i hok, runEpoch_test_loss_skip a i _ hu' hnd]

/-- Witness for C1: with `epochs = 10, update_freq = 3`, the test loss after
1-based epoch 3 is the mean test-batch loss of that epoch's test pass, and
3 is indeed a multiple of `update_freq`. -/
theorem claim_C1_witness :
    (0 < wArgs.update_freq) ∧ (0 < wArgs.save_freq) ∧
    (∀ e, (wArgs.testLosses e).length ≠ 0) ∧ (2 < wArgs.epochs) ∧
    (((wArgs.update_freq ∣ (((2 : Nat) : Int) + 1)) →
        (runEpochs wArgs (2 + 1)).1.test_loss =
          (wArgs.testLosses 2).sum / ((wArgs.testLosses 2).length : ℚ)) ∧
     (¬ (wArgs.update_freq ∣ (((2 : Nat) : Int) + 1)) →
        (runEpochs wArgs (2 + 1)).1.test_loss = (runEpochs wArgs 2).1.test_loss)) :=
  ⟨by decide, by decide, fun e => by simp [wArgs], by decide,
   claim_C1 wArgs (by decide) (by decide) (fun e => by simp [wArgs]) 2 (by decide)⟩

/-- Claim C2: a checkpoint file is written at the end of 0-based epoch `i`
iff `(i+1) % save_freq == 0` and a savepath was supplied, under the file
name `epoch-{i+1}.dat`, which contains the 1-based epoch number; with
`savepath = None` no file is ever written, regardless of `save_freq`
(even when a gate raises and aborts the run). -/
theorem claim_C2 (a : TrainArgs) (n : Nat) :
    (0 < a.update_freq → 0 < a.save_freq → (∀ e, (a.testLosses e).length ≠ 0) →
      (runEpochs a n).1.saved =
        (List.range n).filterMap (fun (i : Nat) =>
          if a.save_freq ∣ ((i : Int) + 1) ∧ a.savepath.isSome
          then some (checkpointFileName (i + 1)) else none)) ∧
    (a.savepath = none → (runEpochs a n).1.saved = []) ∧
    (∀ e : Nat, ∃ pre post : String, checkpointFileName e = pre ++ toString e ++ post) := by
  refine ⟨?_, ?_, ?_⟩
  · intro hu hs ht
    exact runEpochs_saved_spec a (by omega) (by omega) ht n
  · intro hp
    exact runEpochs_saved_nopath a hp n
  · intro e
    exact ⟨"epoch-", ".dat", rfl⟩

/-- Witness for C2: with `epochs = 10, save_freq = 5` and a savepath,
exactly the two files `epoch-5.dat` and `epoch-10.dat` are written. -/
theorem claim_C2_witness :
    (runEpochs wArgs 10).1.saved = [checkpointFileName 5, checkpointFileName 10] := by
  have h := (claim_C2 wArgs 10).1 (by decide) (by decide) (fun e => by simp [wArgs])
  rw [h]
  decide

/-- Claim C7: on an evaluation epoch, the divisor of the stored test loss is
the leaked loop counter from the last completed batch plus one, not a tracked
test-batch count: when the test iterator yields zero batches, the division
uses the stale counter of the epoch's training loop (so the stored loss is
`0 / train_batch_count`, not `total/test_batch_count`), and when no batch loop
ever assigned the counter, reading it raises a `NameError`. -/
theorem claim_C7 (a : TrainArgs) (i : Nat)
    (hu : a.update_freq ≠ 0) (hd : a.update_freq ∣ ((i : Int) + 1))
    (hemp : (a.testLosses i).length = 0)
    (hpre : (runEpochs a i).2 = none) :
    ((a.trainLosses i).length ≠ 0 →
       (runEpochs a (i + 1)).1.evalDivisors =
         (runEpochs a i).1.evalDivisors ++ [(i, (a.trainLosses i).length)] ∧
       (runEpochs a (i + 1)).1.test_loss = 0) ∧
    ((a.trainLosses i).length = 0 → (runEpochs a i).1.index = none →
       (runEpochs a (i + 1)).2 = some PyError.nameError) := by
  constructor
  · intro htr
    rw [runEpochs_succ_ok a i hpre]
    unfold runEpoch
    have hidx : (trainLoop a i (displayStep i (schedStep a (runEpochs a i).1))).index =
        some ((a.trainLosses i).length - 1) :=
      trainLoop_index_pos a i _ htr
    rw [evalStep_fire_empty_some a i _ ((a.trainLosses i).length - 1) hu hd hemp hidx]
    dsimp only
    rw [saveStep_evalDivisors, saveStep_test_loss]
    have hm : (a.trainLosses i).length - 1 + 1 = (a.trainLosses i).length :=
      Nat.succ_pred_eq_of_pos (Nat.pos_of_ne_zero htr)
    refine ⟨?_, rfl⟩
    show (trainLoop a i (displayStep i (schedStep a (runEpochs a i).1))).evalDivisors ++
        [(i, (a.trainLosses i).length - 1 + 1)] = _
    rw [hm]
    simp
  · intro htr hidx0
    rw [runEpochs_succ_ok a i hpre]
    unfold runEpoch
    have hidx : (trainLoop a i (displayStep i (schedStep a (runEpochs a i).1))).index = none := by
      rw [trainLoop_index_empty a i _ htr]
      simpa using hidx0
    rw [evalStep_fire_empty_none a i _ hu hd hemp hidx]

/-- Witness for C7: one epoch with two training batches, an empty test set
and `update_freq = 1` stores `0/2` as the test loss — the divisor recorded is
2, the stale training-loop counter plus one, while zero test batches were
processed. -/
theorem claim_C7_witness :
    (runEpochs w7Args (0 + 1)).1.evalDivisors =
      (runEpochs w7Args 0).1.evalDivisors ++ [(0, (w7Args.trainLosses 0).length)] ∧
    (runEpochs w7Args (0 + 1)).1.test_loss = 0 :=
  (claim_C7 w7Args 0 (by decide) (by decide) (by decide) rfl).1 (by decide)

/-- Claim C9: when `loss_func` is omitted the mean-squared-error loss is
used; when `optimizer` is omitted an Adam optimizer over the model's
parameters at the fixed default learning rate `0.000001` is used; and when
`scheduler` is omitted, no scheduler step is ever performed during the run. -/
theorem claim_C9 (a : TrainArgs) :
    (a.loss_func = none → (train a).loss = LossChoice.mseLoss) ∧
    (a.optimizer = none → (train a).optim = OptimChoice.adam (1 / 1000000)) ∧
    (a.scheduler = none → (train a).state.schedSteps = 0) := by
  refine ⟨?_, ?_, ?_⟩
  · intro h
    show resolveLoss a.loss_func = LossChoice.mseLoss
    rw [h]
    rfl
  · intro h
    show resolveOptimizer a.optimizer = OptimChoice.adam (1 / 1000000)
    rw [h]
    rfl
  · intro h
    show (runEpochs a a.epochs).1.schedSteps = 0
    exact runEpochs_schedSteps_none a h a.epochs

/-- Witness for C9 at a concrete run with all three arguments omitted. -/
theorem claim_C9_witness :
    (train wArgs).loss = LossChoice.mseLoss ∧
    (train wArgs).optim = OptimChoice.adam (1 / 1000000) ∧
    (train wArgs).state.schedSteps = 0 :=
  ⟨(claim_C9 wArgs).1 rfl, (claim_C9 wArgs).2.1 rfl, (claim_C9 wArgs).2.2 rfl⟩

/-- Claim C10: `test_loss` is initialised to `0.0` before the epoch loop, and
every progress status line emitted during an epoch `i` with
`i + 1 ≤ update_freq` — i.e. before the first evaluation epoch completes its
test pass — reports a test loss of exactly `0`. -/
theorem claim_C10 (a : TrainArgs) :
    initState.test_loss = 0 ∧
    ∀ (n i : Nat) (q : ℚ), (i, q) ∈ (runEpochs a n).1.displays →
      ((i : Int) + 1 ≤ a.update_freq) → q = 0 := by
  refine ⟨rfl, ?_⟩
  intro n i q hmem hle
  have hq := runEpochs_displays_val a n (i, q) hmem
  exact hq.trans (runEpochs_test_loss_early a i (by omega))

/-- Witness for C10: with `update_freq = 3`, the status line of epoch 1
(0-based) displays test loss `0`. -/
theorem claim_C10_witness :
    (((1 : Nat), (0 : ℚ)) ∈ (runEpochs wArgs 2).1.displays) ∧
    ((((1 : Nat)) : Int) + 1 ≤ wArgs.update_freq) ∧ (0 : ℚ) = 0 :=
  ⟨by decide, by decide, (claim_C10 wArgs).2 2 1 0 (by decide) (by decide)⟩

/-- A run with both frequencies strictly negative: one epoch, one training
batch, one test batch, a savepath. -/
def c8Args : TrainArgs :=
  { epochs := 1, update_freq := -2, save_freq := -3, savepath := some "runs",
    loss_func := none, optimizer := none, scheduler := none,
    trainLosses := fun _ => [1], testLosses := fun _ => [2] }

/-- Counterexample to C8 as stated: a run whose `update_freq` and `save_freq`
are both strictly negative completes without any error — Python's `%` is
well-defined for negative divisors, so no modulo-by-zero failure occurs. -/
theorem claim_C8_counterexample :
    c8Args.update_freq < 0 ∧ c8Args.save_freq < 0 ∧ 0 < c8Args.epochs ∧
    (train c8Args).err = none := by decide

/-- Claim C8 (amended): nothing is validated up front; an `update_freq` of
zero — or a `save_freq` of zero, reached once the evaluation gate of the
first epoch did not itself raise — aborts the run with a `ZeroDivisionError`
at the first epoch's gate, while strictly negative frequencies do not fail
at all (the gate `(i+1) % f == 0` is well-defined and fires exactly when `f`
divides `i+1`, so a negative frequency behaves like its absolute value). -/
theorem claim_C8 (a : TrainArgs)
    (ht : ∀ e, (a.testLosses e).length ≠ 0) (he : 0 < a.epochs) :
    (a.update_freq = 0 → (train a).err = some PyError.zeroDivisionError) ∧
    (a.update_freq ≠ 0 → a.save_freq = 0 → (train a).err = some PyError.zeroDivisionError) ∧
    (a.update_freq ≠ 0 → a.save_freq ≠ 0 → (train a).err = none) := by
  have hshow : (train a).err = (runEpochs a a.epochs).2 := rfl
  refine ⟨?_, ?_, ?_⟩
  · intro h0
    have h1 : (runEpochs a 1).2 = some PyError.zeroDivisionError := by
      rw [runEpochs_succ_ok a 0 rfl]
      exact runEpoch_err_zero_update a 0 _ h0
    have hfr := runEpochs_err_frozen a 1 _ h1 a.epochs he
    rw [hshow, hfr, h1]
  · intro hu hs0
    have h1 : (runEpochs a 1).2 = some PyError.zeroDivisionError := by
      rw [runEpochs_succ_ok a 0 rfl]
      exact runEpoch_err_zero_save a 0 _ hu hs0 (ht 0)
    have hfr := runEpochs_err_frozen a 1 _ h1 a.epochs he
    rw [hshow, hfr, h1]
  · intro hu hs
    rw [hshow]
    exact runEpochs_ok a hu hs ht a.epochs

/-- The zero-`update_freq` run backing the witness of the amended C8. -/
def w8Args : TrainArgs :=
  { epochs := 1, update_freq := 0, save_freq := 5, savepath := none,
    loss_func := none, optimizer := none, scheduler := none,
    trainLosses := fun _ => [1], testLosses := fun _ => [1] }

/-- Witness for the amended C8: `update_freq = 0` aborts the run with a
`ZeroDivisionError`. -/
theorem claim_C8_witness :
    (train w8Args).err = some PyError.zeroDivisionError :=
  (claim_C8 w8Args (fun e => by simp [w8Args]) (by decide)).1 rfl

/-! ### Helper lemmas: the geometry walk -/

theorem get?_isSome_of_lt {α : Type} (l : List α) (i : Nat) (h : i < l.length) :
    (l.get? i).isSome := by
  rw [List.get?_eq_get h]
  rfl

theorem broadcast1_singleton (p : Int) (n : Nat) :
    broadcast1 [p] n = List.replicate n p := rfl

theorem broadcast1_ne_one (v : List Int) (n : Nat) (h : v.length ≠ 1) :
    broadcast1 v n = v := by
  rcases v with _ | ⟨p, _ | ⟨q, t⟩⟩
  · rfl
  · simp at h
  · rfl

theorem broadcast1_length (v : List Int) (n : Nat)
    (h : v.length = 1 ∨ n ≤ v.length) :
    n ≤ (broadcast1 v n).length := by
  rcases v with _ | ⟨p, _ | ⟨q, t⟩⟩
  · rcases h with h | h
    · simp at h
    · rw [broadcast1_ne_one _ n (by simp)]
      simpa using h
  · simp [broadcast1_singleton]
  · rcases h with h | h
    · simp at h
    · rw [broadcast1_ne_one _ n (by simp)]
      exact h

theorem walkLayers_succ (p d k s f : List Int) (st0 : SizeState) (n : Nat) :
    walkLayers p d k s f st0 (n + 1) =
      match walkLayers p d k s f st0 n with
      | (st, none) => layerStep p d k s f n st
      | (st, some e) => (st, some e) := rfl

theorem walkLayers_succ_err (p d k s f : List Int) (st0 : SizeState) (n : Nat)
    (e : PyError) (h : (walkLayers p d k s f st0 n).2 = some e) :
    walkLayers p d k s f st0 (n + 1) = walkLayers p d k s f st0 n := by
  have h2 := walkLayers_succ p d k s f st0 n
  rcases hw : walkLayers p d k s f st0 n with ⟨st, e'⟩
  rw [hw] at h2 h
  cases e'
  · simp at h
  · simpa using h2

theorem walkLayers_err_frozen (p d k s f : List Int) (st0 : SizeState) (m : Nat)
    (e : PyError) (h : (walkLayers p d k s f st0 m).2 = some e) :
    ∀ n, m ≤ n → walkLayers p d k s f st0 n = walkLayers p d k s f st0 m := by
  intro n hmn
  induction n with
  | zero =>
    have : m = 0 := Nat.le_zero.mp hmn
    rw [this]
  | succ n ih =>
    rcases Nat.lt_or_ge m (n + 1) with hlt | hge
    · have hmn' : m ≤ n := Nat.lt_succ_iff.mp hlt
      have he : (walkLayers p d k s f st0 n).2 = some e := by rw [ih hmn', h]
      rw [walkLayers_succ_err p d k s f st0 n e he, ih hmn']
    · have : m = n + 1 := Nat.le_antisymm hmn hge
      rw [this]

theorem walkLayers_ok (p d k s f : List Int) (v0 : Vec3) (t : Int) :
    ∀ j, (∀ i, i < j → (p.get? i).isSome) → (∀ i, i < j → (d.get? i).isSome) →
      (∀ i, i < j → (k.get? i).isSome) → (∀ i, i < j → (s.get? i).isSome) →
      j ≤ f.length →
      (walkLayers p d k s f ⟨[v0], [t]⟩ j).2 = none ∧
      (walkLayers p d k s f ⟨[v0], [t]⟩ j).1.sizes.length = j + 1 ∧
      (walkLayers p d k s f ⟨[v0], [t]⟩ j).1.channels =
        (List.range (j + 1)).map (fun m => t * (f.take m).prod) := by
  intro j
  induction j with
  | zero =>
    intro _ _ _ _ _
    refine ⟨rfl, rfl, ?_⟩
    simp [walkLayers, List.range_succ]
  | succ j ih =>
    intro hp hd hk hs hf
    obtain ⟨he, hlen, hch⟩ := ih (fun i hi => hp i (by omega)) (fun i hi => hd i (by omega))
      (fun i hi => hk i (by omega)) (fun i hi => hs i (by omega)) (by omega)
    rw [walkLayers_succ]
    rcases hw : walkLayers p d k s f ⟨[v0], [t]⟩ j with ⟨st, e⟩
    rw [hw] at he hlen hch
    replace he : e = none := he
    subst he
    replace hlen : st.sizes.length = j + 1 := hlen
    replace hch : st.channels = (List.range (j + 1)).map (fun m => t * (f.take m).prod) := hch
    obtain ⟨pv, hpv⟩ := Option.isSome_iff_exists.mp (hp j (by omega))
    obtain ⟨dv, hdv⟩ := Option.isSome_iff_exists.mp (hd j (by omega))
    obtain ⟨kv, hkv⟩ := Option.isSome_iff_exists.mp (hk j (by omega))
    obtain ⟨sv, hsv⟩ := Option.isSome_iff_exists.mp (hs j (by omega))
    have hjf : j < f.length := by omega
    have hfv : f.get? j = some (f.get ⟨j, hjf⟩) := List.get?_eq_get hjf
    unfold layerStep
    rw [hpv, hdv, hkv, hsv, hfv]
    dsimp only
    have hlast : ((List.range (j + 1)).map (fun m => t * (f.take m).prod)).getLast?.getD 0
        = t * (f.take j).prod := by
      rw [List.range_succ]
      simp
    have hr : (List.range (j + 1 + 1)).map (fun m => t * (f.take m).prod)
        = (List.range (j + 1)).map (fun m => t * (f.take m).prod)
          ++ [t * (f.take (j + 1)).prod] := by
      rw [List.range_succ]
      simp
    refine ⟨rfl, ?_, ?_⟩
    · simp [hlen]
    · rw [hch, hlast, hr]
      congr 1
      rw [List.prod_take_succ f j hjf, mul_assoc]
      rfl

/-- The walk of `print_network_size`, named so the claims can refer to the
lists fed to `walkLayers` after broadcasting. -/
theorem print_network_size_spec (a : SizeArgs)
    (hp : a.padding.length = 1 ∨ a.conv_layers ≤ a.padding.length)
    (hd : a.dilation.length = 1 ∨ a.conv_layers ≤ a.dilation.length)
    (hk : a.kernel_size.length = 1 ∨ a.conv_layers ≤ a.kernel_size.length)
    (hs : a.stride.length = 1 ∨ a.conv_layers ≤ a.stride.length)
    (hf : a.conv_layers ≤ a.filters.length) :
    (print_network_size a).err = none ∧
    (print_network_size a).final.sizes.length = a.conv_layers + 1 ∧
    (print_network_size a).final.channels =
      (List.range (a.conv_layers + 1)).map (fun m => a.t * (a.filters.take m).prod) ∧
    (print_network_size a).fc =
      some (vecProd ((print_network_size a).final.sizes.getLast?.getD ⟨0, 0, 0⟩) *
        (print_network_size a).final.channels.getLast?.getD 0) := by
  have hw := walkLayers_ok (broadcast1 a.padding a.conv_layers)
    (broadcast1 a.dilation a.conv_layers) (broadcast1 a.kernel_size a.conv_layers)
    (broadcast1 a.stride a.conv_layers) a.filters ⟨a.x, a.y, a.z⟩ a.t a.conv_layers
    (fun i hi => get?_isSome_of_lt _ i (by
      have := broadcast1_length a.padding a.conv_layers hp
      omega))
    (fun i hi => get?_isSome_of_lt _ i (by
      have := broadcast1_length a.dilation a.conv_layers hd
      omega))
    (fun i hi => get?_isSome_of_lt _ i (by
      have := broadcast1_length a.kernel_size a.conv_layers hk
      omega))
    (fun i hi => get?_isSome_of_lt _ i (by
      have := broadcast1_length a.stride a.conv_layers hs
      omega))
    hf
  obtain ⟨he, hlen, hch⟩ := hw
  unfold print_network_size
  rcases hwr : walkLayers (broadcast1 a.padding a.conv_layers)
      (broadcast1 a.dilation a.conv_layers) (broadcast1 a.kernel_size a.conv_layers)
      (broadcast1 a.stride a.conv_layers) a.filters
      { sizes := [⟨a.x, a.y, a.z⟩], channels := [a.t] } a.conv_layers with ⟨st, e⟩
  rw [hwr] at he hlen hch
  replace he : e = none := he
  subst he
  replace hlen : st.sizes.length = a.conv_layers + 1 := hlen
  replace hch : st.channels =
    (List.range (a.conv_layers + 1)).map (fun m => a.t * (a.filters.take m).prod) := hch
  exact ⟨rfl, hlen, hch, rfl⟩

theorem walkLayers_err_at (p d k s f : List Int) (v0 : Vec3) (t : Int) (m n : Nat)
    (hm : p.get? m = none)
    (hp : ∀ i, i < m → (p.get? i).isSome) (hd : ∀ i, i < m → (d.get? i).isSome)
    (hk : ∀ i, i < m → (k.get? i).isSome) (hs : ∀ i, i < m → (s.get? i).isSome)
    (hf : m ≤ f.length) (hmn : m < n) :
    (walkLayers p d k s f ⟨[v0], [t]⟩ n).2 = some PyError.indexError ∧
    (walkLayers p d k s f ⟨[v0], [t]⟩ n).1.sizes.length = m + 1 := by
  obtain ⟨he, hlen, _⟩ := walkLayers_ok p d k s f v0 t m hp hd hk hs hf
  have hstep : walkLayers p d k s f ⟨[v0], [t]⟩ (m + 1) =
      ((walkLayers p d k s f ⟨[v0], [t]⟩ m).1, some PyError.indexError) := by
    rw [walkLayers_succ]
    rcases hw : walkLayers p d k s f ⟨[v0], [t]⟩ m with ⟨st, e⟩
    rw [hw] at he
    replace he : e = none := he
    subst he
    unfold layerStep
    rw [hm]
  have hfr := walkLayers_err_frozen p d k s f ⟨[v0], [t]⟩ (m + 1) PyError.indexError
    (by rw [hstep]) n hmn
  rw [hfr, hstep]
  exact ⟨rfl, hlen⟩

theorem convOutDim_floor (inp p d k s : Int) (hs : 0 < s) :
    s * (convOutDim inp p d k s - 1) ≤ inp + 2 * p - d * (k - 1) - 1 ∧
    inp + 2 * p - d * (k - 1) - 1 < s * convOutDim inp p d k s := by
  have hval : convOutDim inp p d k s = (inp + 2 * p - d * (k - 1) - 1) / s + 1 := by
    unfold convOutDim
    rw [Int.fdiv_eq_ediv _ (le_of_lt hs)]
  rw [hval]
  have heq := Int.ediv_add_emod (inp + 2 * p - d * (k - 1) - 1) s
  have h0 := Int.emod_nonneg (inp + 2 * p - d * (k - 1) - 1) (by omega : s ≠ 0)
  have h1 := Int.emod_lt_of_pos (inp + 2 * p - d * (k - 1) - 1) hs
  constructor
  · have h2 : (inp + 2 * p - d * (k - 1) - 1) / s + 1 - 1
        = (inp + 2 * p - d * (k - 1) - 1) / s := by ring
    rw [h2]
    linarith
  · have h3 : s * ((inp + 2 * p - d * (k - 1) - 1) / s + 1)
        = s * ((inp + 2 * p - d * (k - 1) - 1) / s) + s := by ring
    rw [h3]
    linarith

/-! ### Claims about the geometry calculator -/

/-- Claim C3: for every spatial axis and positive stride, the layer output
size computed by `get_out_dims` is the floor of
`(input + 2*padding - dilation*(kernel-1) - 1) / stride + 1`, applied
independently per axis (the bounds below characterise the truncating floor:
each axis output depends only on that axis's parameters); in particular
input dims `(64,64,64)` with kernel 4, stride 2, dilation 1, padding 0 give
output dims `(31,31,31)`. -/
theorem claim_C3 (input padding dilation kernel stride : Vec3)
    (hx : 0 < stride.x) (hy : 0 < stride.y) (hz : 0 < stride.z) :
    (stride.x * ((get_out_dims input padding dilation kernel stride).x - 1) ≤
        input.x + 2 * padding.x - dilation.x * (kernel.x - 1) - 1 ∧
      input.x + 2 * padding.x - dilation.x * (kernel.x - 1) - 1 <
        stride.x * (get_out_dims input padding dilation kernel stride).x) ∧
    (stride.y * ((get_out_dims input padding dilation kernel stride).y - 1) ≤
        input.y + 2 * padding.y - dilation.y * (kernel.y - 1) - 1 ∧
      input.y + 2 * padding.y - dilation.y * (kernel.y - 1) - 1 <
        stride.y * (get_out_dims input padding dilation kernel stride).y) ∧
    (stride.z * ((get_out_dims input padding dilation kernel stride).z - 1) ≤
        input.z + 2 * padding.z - dilation.z * (kernel.z - 1) - 1 ∧
      input.z + 2 * padding.z - dilation.z * (kernel.z - 1) - 1 <
        stride.z * (get_out_dims input padding dilation kernel stride).z) ∧
    get_out_dims ⟨64, 64, 64⟩ ⟨0, 0, 0⟩ ⟨1, 1, 1⟩ ⟨4, 4, 4⟩ ⟨2, 2, 2⟩ = ⟨31, 31, 31⟩ :=
  ⟨convOutDim_floor input.x padding.x dilation.x kernel.x stride.x hx,
   convOutDim_floor input.y padding.y dilation.y kernel.y stride.y hy,
   convOutDim_floor input.z padding.z dilation.z kernel.z stride.z hz,
   by decide⟩

/-- Witness for C3: the spec's worked example,
`(64,64,64), kernel 4, stride 2, dilation 1, padding 0 → (31,31,31)`,
obtained through `claim_C3` at that concrete input. -/
theorem claim_C3_witness :
    get_out_dims ⟨64, 64, 64⟩ ⟨0, 0, 0⟩ ⟨1, 1, 1⟩ ⟨4, 4, 4⟩ ⟨2, 2, 2⟩ = ⟨31, 31, 31⟩ :=
  (claim_C3 ⟨64, 64, 64⟩ ⟨0, 0, 0⟩ ⟨1, 1, 1⟩ ⟨4, 4, 4⟩ ⟨2, 2, 2⟩
    (by decide) (by decide) (by decide)).2.2.2

/-- A geometry-walk input with one layer and a length-2 padding vector:
`2 ∉ {1, n_layers}`, yet the walk succeeds. -/
def c4Args : SizeArgs :=
  { padding := [0, 0], dilation := [1], kernel_size := [3], stride := [1],
    conv_layers := 1, filters := [2], t := 1, x := 8, y := 8, z := 8 }

/-- Counterexample to C4 as stated: with `conv_layers = 1` and a padding
vector of length 2 (not in `{1, n_layers}`), `print_network_size` does not
fail with any error at all — it completes and reports a feature count; the
extra entry is silently ignored. -/
theorem claim_C4_counterexample :
    c4Args.padding.length ≠ 1 ∧ c4Args.padding.length ≠ c4Args.conv_layers ∧
    (print_network_size c4Args).err = none ∧
    (print_network_size c4Args).fc.isSome := by decide

/-- Claim C4 (amended): a per-layer hyperparameter vector of length exactly 1
is broadcast (repeated across all `conv_layers` layers, and across the three
spatial axes of each layer via `rep3`); a vector with at least `conv_layers`
entries is used per layer as-is.  No other length is validated and no
ConfigurationError exists: a vector longer than `conv_layers` has its extra
entries silently ignored and the walk succeeds, while a too-short vector
(length neither 1 nor ≥ `conv_layers`, shown here for padding) raises an
`IndexError` only partway through the walk, after its first
`padding.length` layers have already been computed and printed. -/
theorem claim_C4 (a : SizeArgs) :
    (∀ (p0 : Int) (n : Nat), broadcast1 [p0] n = List.replicate n p0) ∧
    ((a.padding.length = 1 ∨ a.conv_layers ≤ a.padding.length) →
      (a.dilation.length = 1 ∨ a.conv_layers ≤ a.dilation.length) →
      (a.kernel_size.length = 1 ∨ a.conv_layers ≤ a.kernel_size.length) →
      (a.stride.length = 1 ∨ a.conv_layers ≤ a.stride.length) →
      a.conv_layers ≤ a.filters.length →
      (print_network_size a).err = none) ∧
    (a.padding.length ≠ 1 → a.padding.length < a.conv_layers →
      (a.dilation.length = 1 ∨ a.conv_layers ≤ a.dilation.length) →
      (a.kernel_size.length = 1 ∨ a.conv_layers ≤ a.kernel_size.length) →
      (a.stride.length = 1 ∨ a.conv_layers ≤ a.stride.length) →
      a.conv_layers ≤ a.filters.length →
      (print_network_size a).err = some PyError.indexError ∧
      (print_network_size a).final.sizes.length = a.padding.length + 1) := by
  refine ⟨fun p0 n => rfl, ?_, ?_⟩
  · intro hp hd hk hs hf
    exact (print_network_size_spec a hp hd hk hs hf).1
  · intro hp1 hpn hd hk hs hf
    have hpb : broadcast1 a.padding a.conv_layers = a.padding :=
      broadcast1_ne_one _ _ hp1
    have herr := walkLayers_err_at (broadcast1 a.padding a.conv_layers)
      (broadcast1 a.dilation a.conv_layers) (broadcast1 a.kernel_size a.conv_layers)
      (broadcast1 a.stride a.conv_layers) a.filters ⟨a.x, a.y, a.z⟩ a.t
      a.padding.length a.conv_layers
      (by rw [hpb]; exact List.get?_eq_none.mpr (le_refl _))
      (fun i hi => by rw [hpb]; exact get?_isSome_of_lt _ i hi)
      (fun i hi => get?_isSome_of_lt _ i (by
        have := broadcast1_length a.dilation a.conv_layers hd
        omega))
      (fun i hi => get?_isSome_of_lt _ i (by
        have := broadcast1_length a.kernel_size a.conv_layers hk
        omega))
      (fun i hi => get?_isSome_of_lt _ i (by
        have := broadcast1_length a.stride a.conv_layers hs
        omega))
      (by omega) hpn
    obtain ⟨he, hlen⟩ := herr
    unfold print_network_size
    rcases hwr : walkLayers (broadcast1 a.padding a.conv_layers)
        (broadcast1 a.dilation a.conv_layers) (broadcast1 a.kernel_size a.conv_layers)
        (broadcast1 a.stride a.conv_layers) a.filters
        { sizes := [⟨a.x, a.y, a.z⟩], channels := [a.t] } a.conv_layers with ⟨st, e⟩
    rw [hwr] at he hlen
    replace he : e = some PyError.indexError := he
    subst he
    replace hlen : st.sizes.length = a.padding.length + 1 := hlen
    exact ⟨rfl, hlen⟩

/-- The geometry-walk input backing the witness of the amended C4: three
layers, a padding vector of length 2. -/
def c4wArgs : SizeArgs :=
  { padding := [0, 0], dilation := [1], kernel_size := [3], stride := [1],
    conv_layers := 3, filters := [2, 2, 2], t := 1, x := 8, y := 8, z := 8 }

/-- Witness for the amended C4: a length-2 padding vector with
`conv_layers = 3` raises an `IndexError` after the first two layers were
computed (three entries in the size chain: the input plus two layers). -/
theorem claim_C4_witness :
    (print_network_size c4wArgs).err = some PyError.indexError ∧
    (print_network_size c4wArgs).final.sizes.length = c4wArgs.padding.length + 1 :=
  (claim_C4 c4wArgs).2.2 (by decide) (by decide) (by decide) (by decide)
    (by decide) (by decide)

/-- Claim C5: for every valid broadcastable LayerSpec (each of padding,
dilation, kernel, stride of length 1 or `conv_layers`, filters of length
exactly `conv_layers`) and every initial channel count `t`, the walk
succeeds and the channel chain is `t * prod(filters[0..m-1])` at each layer
boundary `m`; in particular the final channel count is
`t * prod(filters[0..n-1])`. -/
theorem claim_C5 (a : SizeArgs)
    (hp : a.padding.length = 1 ∨ a.padding.length = a.conv_layers)
    (hd : a.dilation.length = 1 ∨ a.dilation.length = a.conv_layers)
    (hk : a.kernel_size.length = 1 ∨ a.kernel_size.length = a.conv_layers)
    (hs : a.stride.length = 1 ∨ a.stride.length = a.conv_layers)
    (hf : a.filters.length = a.conv_layers) :
    (print_network_size a).err = none ∧
    (print_network_size a).final.channels =
      (List.range (a.conv_layers + 1)).map (fun m => a.t * (a.filters.take m).prod) ∧
    (print_network_size a).final.channels.getLast? = some (a.t * a.filters.prod) := by
  have hspec := print_network_size_spec a
    (hp.imp id fun h => le_of_eq h.symm) (hd.imp id fun h => le_of_eq h.symm)
    (hk.imp id fun h => le_of_eq h.symm) (hs.imp id fun h => le_of_eq h.symm)
    (le_of_eq hf.symm)
  obtain ⟨he, _, hch, _⟩ := hspec
  refine ⟨he, hch, ?_⟩
  rw [hch, List.range_succ]
  simp [List.take_of_length_le (le_of_eq hf)]

/-- The geometry-walk input backing the witnesses of C5 and C6: the spec's
worked example, three layers of kernel 4, stride 2, filters ×4 from one
input channel at `(64,64,64)`. -/
def cgArgs : SizeArgs :=
  { padding := [0], dilation := [1], kernel_size := [4], stride := [2],
    conv_layers := 3, filters := [4, 4, 4], t := 1, x := 64, y := 64, z := 64 }

/-- Witness for C5: three ×4 filter layers starting from one channel end at
`1 * (4*4*4) = 64` channels. -/
theorem claim_C5_witness :
    (print_network_size cgArgs).err = none ∧
    (print_network_size cgArgs).final.channels.getLast? =
      some (cgArgs.t * cgArgs.filters.prod) :=
  ⟨(claim_C5 cgArgs (Or.inl rfl) (Or.inl rfl) (Or.inl rfl) (Or.inl rfl) rfl).1,
   (claim_C5 cgArgs (Or.inl rfl) (Or.inl rfl) (Or.inl rfl) (Or.inl rfl) rfl).2.2⟩

/-- Claim C6: whenever the walk completes, the reported flattened feature
count for the first fully-connected layer equals the product of the final
layer's spatial dimensions multiplied by the final channel count. -/
theorem claim_C6 (a : SizeArgs)
    (hp : a.padding.length = 1 ∨ a.conv_layers ≤ a.padding.length)
    (hd : a.dilation.length = 1 ∨ a.conv_layers ≤ a.dilation.length)
    (hk : a.kernel_size.length = 1 ∨ a.conv_layers ≤ a.kernel_size.length)
    (hs : a.stride.length = 1 ∨ a.conv_layers ≤ a.stride.length)
    (hf : a.conv_layers ≤ a.filters.length) :
    (print_network_size a).fc =
      some (vecProd ((print_network_size a).final.sizes.getLast?.getD ⟨0, 0, 0⟩) *
        (print_network_size a).final.channels.getLast?.getD 0) :=
  (print_network_size_spec a hp hd hk hs hf).2.2.2

/-- Witness for C6: on the spec's worked example the reported feature count
equals the product of the final spatial dims and the final channel count. -/
theorem claim_C6_witness :
    (print_network_size cgArgs).fc =
      some (vecProd ((print_network_size cgArgs).final.sizes.getLast?.getD ⟨0, 0, 0⟩) *
        (print_network_size cgArgs).final.channels.getLast?.getD 0) :=
  claim_C6 cgArgs (Or.inl rfl) (Or.inl rfl) (Or.inl rfl) (Or.inl rfl) (by decide)

end MAPnet
